import Mathlib

/-!
Verification of the validator-staking-parameter negotiation workflow of the
metal-cli repository (`cmd/subnetcmd/addValidator.go` and the subnet-name
check in the subnet-create command file).

Shallow embedding conventions:
* Go `time.Time` and `time.Duration` are modelled as `Int` values counting
  seconds; all the checked comparisons in the source are order comparisons,
  which are preserved by this granularity.
* Interactive prompts and remote calls are modelled by explicit oracle
  inputs: each prompt answer or remote response the source can observe is a
  field of an input structure.
* Package-level flag variables (`weight`, `startTimeStr`, `duration`) become
  explicit arguments.
-/

namespace MetalCli

/-- Modelled from the spec: `constants.MinStakeWeight` lives in
`pkg/constants`, which is not part of the reviewed sources.  The error
message in `addValidator.go` ("must be between 1 and 100 inclusive") fixes
the value 1. -/
def MinStakeWeight : Int := 1

/-- Modelled from the spec: `constants.MaxStakeWeight`; the error message in
`addValidator.go` fixes the value 100. -/
def MaxStakeWeight : Int := 100

/-- Modelled from the spec: `constants.StakingStartLeadTime`, the lead used
for the "Start in five minutes" default; five minutes, in seconds. -/
def StakingStartLeadTime : Int := 300

/-- Modelled from the spec: `constants.StakingMinimumLeadTime`, the minimum
lead a flag-supplied start time must have over the clock; the spec gives no
numeric value, five minutes (in seconds) is used here.  Every theorem that
depends on it only uses it as an opaque additive constant except the closed
counterexamples, which hold for any positive value. -/
def StakingMinimumLeadTime : Int := 300

/-- `startTimeDefault = time.Now().Add(constants.StakingStartLeadTime)`
(addValidator.go line 30): a package-level variable, so the clock is read
once, at package initialization; `initTime` is that one reading. -/
def startTimeDefault (initTime : Int) : Int :=
  initTime + StakingStartLeadTime

/-! ## Stake-weight resolution (addValidator.go lines 111-118) -/

/-- Outcome of the weight branch of `addValidator`:
`promptUser` is the `weight == 0` branch (fall through to `promptWeight`),
`illegalWeight` the error return, `useFlag` the accepted flag value. -/
inductive WeightResolution where
  | promptUser
  | illegalWeight
  | useFlag (w : Int)
  deriving DecidableEq, Repr

/-- The weight branch of `addValidator`:
`if weight == 0` prompt; `else if weight < MinStakeWeight || weight >
MaxStakeWeight` fail with the illegal-weight error; else use the flag. -/
def resolveWeight (weight : Int) : WeightResolution :=
  if weight = 0 then .promptUser
  else if weight < MinStakeWeight ∨ weight > MaxStakeWeight then .illegalWeight
  else .useFlag weight

/-! ## Subnet-name validation (`checkInvalidSubnetNames`, unnamed file) -/

/-- The per-rune test of `checkInvalidSubnetNames`:
`r > unicode.MaxASCII || !(unicode.IsLetter(r) || unicode.IsNumber(r) || r == ' ')`.
For runes at most 127 Go's `unicode.IsLetter` holds exactly on ASCII
letters and `unicode.IsNumber` exactly on ASCII digits, so `Char.isAlpha`
and `Char.isDigit` (both ASCII-only) coincide with them on that range; for
runes above 127 the first disjunct decides the test on its own. -/
def isIllegalNameChar (r : Char) : Bool :=
  decide (r.toNat > 127) || !(r.isAlpha || r.isDigit || r = ' ')

/-- Result of `checkInvalidSubnetNames`: `ok` (nil error) or the
`errIllegalNameCharacter` error. -/
inductive NameCheck where
  | ok
  | illegalNameCharacter
  deriving DecidableEq, Repr

/-- `checkInvalidSubnetNames` iterates the runes of the name and returns
`errIllegalNameCharacter` at the first rune failing the test, nil
otherwise. -/
def checkInvalidSubnetNames (name : List Char) : NameCheck :=
  match name with
  | [] => .ok
  | r :: rest =>
    if isIllegalNameChar r then .illegalNameCharacter
    else checkInvalidSubnetNames rest

/-! ## Duration-confirmation loop (`promptDuration`, lines 135-152)

One prompt cycle = one `CaptureDuration` answer together with the
`CaptureYesNo` answer to the end-time confirmation; a cycle is a pair
`(d, yes)`.  Capture errors abort the loop in the source; they are modelled
by the script running out (`none` result), which the claims never reach
because they quantify over scripts ending in a confirmation. -/

/-- `promptDuration`: loop capturing a duration and a yes/no confirmation;
returns the first confirmed duration together with the number of prompt
cycles performed. -/
def promptDuration : List (Int × Bool) → Option (Int × Nat)
  | [] => none
  | (d, yes) :: rest =>
    if yes then some (d, 1)
    else
      match promptDuration rest with
      | some (dr, n) => some (dr, n + 1)
      | none => none

/-! ## "Until expires" lookup (`getMaxValidationTime`, lines 154-175) -/

/-- Errors of the time-parameter resolution. -/
inductive TimeError where
  | parseError      -- time.Parse failure on the start-time flag
  | tooSoon         -- "time should be at least ... in the future"
  | promptError     -- a prompt capture returned an error
  | gatewayError    -- GetCurrentValidators transport/timeout failure
  | nodeNotFound    -- "nodeID not found in validator set"
  deriving DecidableEq, Repr

/-- The scan loop of `getMaxValidationTime`: first record whose `NodeID`
matches, yielding its `EndTime`.  Node identifiers are abstracted to `Nat`,
end times to seconds. -/
def scanValidators (vs : List (Nat × Int)) (nodeID : Nat) : Option Int :=
  match vs with
  | [] => none
  | (n, e) :: rest => if n = nodeID then some e else scanValidators rest nodeID

/-- `getMaxValidationTime`: query the validator set of the network
(`resp = none` models a transport or timeout error, propagated unchanged);
on a response, scan for the node and return
`time.Unix(endTime, 0).Sub(startTime)`, i.e. `endTime - startTime`
seconds; fail with the node-not-found error if the scan misses. -/
def getMaxValidationTime (resp : Option (List (Nat × Int))) (nodeID : Nat)
    (startTime : Int) : Except TimeError Int :=
  match resp with
  | none => .error .gatewayError
  | some vs =>
    match scanValidators vs nodeID with
    | some e => .ok (e - startTime)
    | none => .error .nodeNotFound

/-! ## `getTimeParameters` (lines 177-240) -/

/-- Oracle inputs of the start-time half of `getTimeParameters`.
`flag = none` models `startTimeStr == ""`; `flag = some none` a flag string
`time.Parse` rejects; `flag = some (some t)` a flag string parsing to `t`.
When there is no flag, `chooseDefault` is the `CaptureList` choice
("Start in five minutes" versus "Custom") and `customStart` the
`promptStart` outcome (`none` = capture error). -/
structure StartInput where
  flag : Option (Option Int)
  chooseDefault : Bool
  customStart : Option Int

/-- Oracle inputs of the duration half of `getTimeParameters`.
`flag` is the `--staking-period` value, `0` meaning unset;
`chooseExpiry` is the `CaptureList` choice ("Until primary network
validator expires" versus "Custom"); `validators` the gateway response and
`nodeID` the validator looked for; `promptCycles` the custom-duration
loop script. -/
structure DurationInput where
  flag : Int
  chooseExpiry : Bool
  validators : Option (List (Nat × Int))
  nodeID : Nat
  promptCycles : List (Int × Bool)

/-- Start-time half of `getTimeParameters` (lines 189-216).  `stDefault` is
the package-level `startTimeDefault`; `now` is the `time.Now()` reading of
the flag-validation branch (line 213). -/
def resolveStart (stDefault now : Int) (inp : StartInput) :
    Except TimeError Int :=
  match inp.flag with
  | none =>
    if inp.chooseDefault then .ok stDefault
    else
      match inp.customStart with
      | some t => .ok t
      | none => .error .promptError
  | some none => .error .parseError
  | some (some t) =>
    if t < now + StakingMinimumLeadTime then .error .tooSoon
    else .ok t

/-- Duration half of `getTimeParameters` (lines 218-238): a non-zero
`--staking-period` flag is used directly; otherwise the chosen option runs
either the expiry lookup or the custom-duration loop. -/
def resolveDuration (inp : DurationInput) (start : Int) :
    Except TimeError Int :=
  if inp.flag = 0 then
    if inp.chooseExpiry then
      getMaxValidationTime inp.validators inp.nodeID start
    else
      match promptDuration inp.promptCycles with
      | some (d, _) => .ok d
      | none => .error .promptError
  else .ok inp.flag

/-- `getTimeParameters`: resolve the start time, then the duration, failing
fast. -/
def getTimeParameters (stDefault now : Int) (s : StartInput)
    (d : DurationInput) : Except TimeError (Int × Int) :=
  match resolveStart stDefault now s with
  | .error e => .error e
  | .ok start =>
    match resolveDuration d start with
    | .error e => .error e
    | .ok dur => .ok (start, dur)

/-! ## Timestamp layout

`constants.TimeParseLayout` lives in `pkg/constants`, outside the reviewed
sources; the flag help text in `addValidator.go` and the spec fix it as the
literal layout for `YYYY-MM-DD HH:MM:SS`.  `addValidator.go` uses the one
constant both for `time.Parse` of the start-time flag (line 209) and for
`Format` of the confirmation and summary output (lines 127, 128, 143); the
model below accordingly has one parse and one format function over the same
fixed field layout. -/

/-- A wall-clock timestamp as the six fields of the fixed layout. -/
structure DateTime where
  year : Nat
  month : Nat
  day : Nat
  hour : Nat
  minute : Nat
  second : Nat
  deriving DecidableEq, Repr

/-- Go's digit test on a rune, at codepoint level. -/
def isDigitChar (c : Char) : Bool :=
  decide (48 ≤ c.toNat) && decide (c.toNat ≤ 57)

/-- Numeric value of a digit character. -/
def digitVal (c : Char) : Nat := c.toNat - 48

/-- Gregorian leap-year rule used by Go's `time` package. -/
def isLeapYear (y : Nat) : Bool :=
  y % 4 = 0 && (y % 100 ≠ 0 || y % 400 = 0)

/-- Days in a month, as Go's `time` package range-checks the day field. -/
def daysInMonth (y m : Nat) : Nat :=
  if m = 2 then (if isLeapYear y then 29 else 28)
  else if m = 4 ∨ m = 6 ∨ m = 9 ∨ m = 11 then 30
  else 31

/-- Modelled from the spec: `time.Parse(constants.TimeParseLayout, s)`.
The layout's fields are fixed-width zero-padded decimal, so a successful
parse needs exactly nineteen characters with digits and separators in the
layout's positions, and Go range-checks month, day (against the month
length), hour, minute and second. -/
def parseTimestamp (s : List Char) : Option DateTime :=
  match s with
  | [y1, y2, y3, y4, c1, m1, m2, c2, d1, d2, c3, h1, h2, c4, n1, n2, c5, s1, s2] =>
    if isDigitChar y1 && isDigitChar y2 && isDigitChar y3 && isDigitChar y4 &&
       c1 == '-' && isDigitChar m1 && isDigitChar m2 && c2 == '-' &&
       isDigitChar d1 && isDigitChar d2 && c3 == ' ' &&
       isDigitChar h1 && isDigitChar h2 && c4 == ':' &&
       isDigitChar n1 && isDigitChar n2 && c5 == ':' &&
       isDigitChar s1 && isDigitChar s2 then
      let year := 1000 * digitVal y1 + 100 * digitVal y2 + 10 * digitVal y3 + digitVal y4
      let month := 10 * digitVal m1 + digitVal m2
      let day := 10 * digitVal d1 + digitVal d2
      let hour := 10 * digitVal h1 + digitVal h2
      let minute := 10 * digitVal n1 + digitVal n2
      let second := 10 * digitVal s1 + digitVal s2
      if 1 ≤ month ∧ month ≤ 12 ∧ 1 ≤ day ∧ day ≤ daysInMonth year month ∧
         hour ≤ 23 ∧ minute ≤ 59 ∧ second ≤ 59 then
        some ⟨year, month, day, hour, minute, second⟩
      else none
    else none
  | _ => none

/-- Two-digit zero-padded decimal rendering of a field. -/
def twoDigits (n : Nat) : List Char :=
  [Char.ofNat (48 + n / 10 % 10), Char.ofNat (48 + n % 10)]

/-- Four-digit zero-padded decimal rendering of the year field. -/
def fourDigits (n : Nat) : List Char :=
  [Char.ofNat (48 + n / 1000 % 10), Char.ofNat (48 + n / 100 % 10),
   Char.ofNat (48 + n / 10 % 10), Char.ofNat (48 + n % 10)]

/-- Modelled from the spec: `t.Format(constants.TimeParseLayout)`, the same
fixed layout the parse uses. -/
def formatTimestamp (dt : DateTime) : List Char :=
  fourDigits dt.year ++ '-' :: twoDigits dt.month ++ '-' :: twoDigits dt.day ++
  ' ' :: twoDigits dt.hour ++ ':' :: twoDigits dt.minute ++ ':' :: twoDigits dt.second

/-! ## Command orchestrator with an explicit effect trace

`addValidator` (lines 59-133) is embedded as a function from an oracle of
external outcomes to a result paired with the ordered list of externally
visible effects the run performed.  Consecutive prompt interactions inside
one phase are recorded as a single `promptUser` effect and the summary
print block as one `printToUser` effect: the claims about the trace only
concern which persisted-state effects occur, never prompt multiplicity.
The write effects (`writeGenesisFile`, `writeSidecar`, `writeKeyFile`)
exist in the repository — the first two are performed by `createGenesis`
of the subnet-create command, embedded below — so the vocabulary can
express persisted-state modification. -/

/-- Externally visible effects of the subnet commands. -/
inductive Effect where
  | readKeyDir            -- os.ReadDir(app.GetKeyDir())
  | promptUser            -- any app.Prompt.Capture*
  | readSubnetConfig      -- validateSubnetNameAndGetChains consulting persisted config
  | readSidecar           -- app.LoadSidecar
  | queryValidators       -- platformCli.GetCurrentValidators
  | printToUser           -- ux.Logger.PrintToUser
  | submitAddValidatorTx  -- deployer.AddValidator
  | writeGenesisFile      -- app.WriteGenesisFile (subnet create only)
  | writeSidecar          -- app.CreateSidecar (subnet create only)
  | writeKeyFile          -- key-material creation (key command only)
  deriving DecidableEq, Repr

/-- Effects that modify persisted local state: configuration, sidecar
records, or key material. -/
def modifiesPersistedState : Effect → Bool
  | .writeGenesisFile => true
  | .writeSidecar => true
  | .writeKeyFile => true
  | _ => false

/-- Errors the subnet commands can return. -/
inductive CmdError where
  | keyDirError
  | promptError
  | invalidName
  | sidecarLoadError
  | noSubnetID
  | nodeIDParseError
  | illegalWeight
  | timeError (e : TimeError)
  | submissionError
  | configExists
  | tooManyVMs
  | vmConfigError
  | writeError
  deriving DecidableEq, Repr

/-- Oracle of external outcomes for one `addValidator` run.  `none` in an
`Option` field is the corresponding external call returning an error.
`sidecar` carries the subnet ID of the loaded record, `0` modelling
`ids.Empty`; `nodeIDFlag = none` is an empty `--nodeID` flag, `some none`
a flag `ids.NodeIDFromString` rejects. -/
structure AddValidatorInput where
  keyFlag : Option String
  keyDirRead : Option Unit
  keyPrompt : Option String
  networkPrompt : Option Unit
  nameAndChains : Option Unit
  sidecar : Option Nat
  nodeIDFlag : Option (Option Nat)
  nodeIDPrompt : Option Nat
  weightFlag : Int
  weightPrompt : Option Int
  stDefault : Int
  now : Int
  startInput : StartInput
  durationInput : DurationInput
  submit : Option Unit

/-- Key-name resolution (lines 67-72 with `captureKeyName`, lines
270-290): with no `--key` flag, read the key directory and prompt for a
choice. -/
def keyNameStep (keyFlag : Option String) (keyDirRead : Option Unit)
    (keyPrompt : Option String) : Except CmdError Unit × List Effect :=
  match keyFlag with
  | some _ => (.ok (), [])
  | none =>
    match keyDirRead with
    | none => (.error .keyDirError, [.readKeyDir])
    | some _ =>
      match keyPrompt with
      | none => (.error .promptError, [.readKeyDir, .promptUser])
      | some _ => (.ok (), [.readKeyDir, .promptUser])

/-- Node-ID resolution (lines 99-109): prompt when the flag is empty,
otherwise parse the flag. -/
def nodeIDStep (nodeIDFlag : Option (Option Nat)) (nodeIDPrompt : Option Nat) :
    Except CmdError Nat × List Effect :=
  match nodeIDFlag with
  | none =>
    match nodeIDPrompt with
    | none => (.error .promptError, [.promptUser])
    | some n => (.ok n, [.promptUser])
  | some none => (.error .nodeIDParseError, [])
  | some (some n) => (.ok n, [])

/-- Weight resolution (lines 111-118): the `resolveWeight` branch, the
prompt-user case consulting `promptWeight`. -/
def weightStep (weightFlag : Int) (weightPrompt : Option Int) :
    Except CmdError Unit × List Effect :=
  match resolveWeight weightFlag with
  | .promptUser =>
    match weightPrompt with
    | none => (.error .promptError, [.promptUser])
    | some _ => (.ok (), [.promptUser])
  | .illegalWeight => (.error .illegalWeight, [])
  | .useFlag _ => (.ok (), [])

/-- The `addValidator` orchestrator (lines 59-133): resolve the key name,
the network, the subnet name and sidecar, the node ID, the weight and the
time parameters, failing fast on the first error, then print the summary
and submit the transaction.  The resolved node ID replaces the
`durationInput` placeholder before the time parameters are resolved, as
`getTimeParameters(network, nodeID)` receives it in the source. -/
def addValidatorRun (inp : AddValidatorInput) :
    Except CmdError Unit × List Effect :=
  match keyNameStep inp.keyFlag inp.keyDirRead inp.keyPrompt with
  | (.error e, tr) => (.error e, tr)
  | (.ok _, tr1) =>
    match inp.networkPrompt with
    | none => (.error .promptError, tr1 ++ [.promptUser])
    | some _ =>
      let tr2 := tr1 ++ [.promptUser]
      match inp.nameAndChains with
      | none => (.error .invalidName, tr2 ++ [.readSubnetConfig])
      | some _ =>
        let tr3 := tr2 ++ [.readSubnetConfig]
        match inp.sidecar with
        | none => (.error .sidecarLoadError, tr3 ++ [.readSidecar])
        | some subnetID =>
          let tr4 := tr3 ++ [.readSidecar]
          if subnetID = 0 then (.error .noSubnetID, tr4)
          else
            match nodeIDStep inp.nodeIDFlag inp.nodeIDPrompt with
            | (.error e, tr) => (.error e, tr4 ++ tr)
            | (.ok nodeID, trN) =>
              let tr5 := tr4 ++ trN
              match weightStep inp.weightFlag inp.weightPrompt with
              | (.error e, tr) => (.error e, tr5 ++ tr)
              | (.ok _, trW) =>
                let tr6 := tr5 ++ trW
                let startEffects : List Effect :=
                  match inp.startInput.flag with
                  | none => [.promptUser]
                  | some _ => []
                match resolveStart inp.stDefault inp.now inp.startInput with
                | .error e => (.error (.timeError e), tr6 ++ startEffects)
                | .ok start =>
                  let d := { inp.durationInput with nodeID := nodeID }
                  let durEffects : List Effect :=
                    if d.flag = 0 then
                      if d.chooseExpiry then [.promptUser, .queryValidators]
                      else [.promptUser, .promptUser]
                    else []
                  match resolveDuration d start with
                  | .error e =>
                    (.error (.timeError e), tr6 ++ startEffects ++ durEffects)
                  | .ok _ =>
                    let tr7 := tr6 ++ startEffects ++ durEffects ++ [.printToUser]
                    match inp.submit with
                    | none =>
                      (.error .submissionError, tr7 ++ [.submitAddValidatorTx])
                    | some _ => (.ok (), tr7 ++ [.submitAddValidatorTx])

/-- Oracle for one `createGenesis` run of the subnet-create command. -/
structure CreateGenesisInput where
  genesisExists : Bool
  forceCreate : Bool
  name : List Char
  moreThanOneVM : Bool
  vmTypePrompt : Option Unit   -- CaptureList when no VM flag selects a type
  vmFlagSelected : Bool
  vmConfig : Option Unit       -- CreateEvmSubnetConfig / CreateCustomSubnetConfig
  writeGenesis : Option Unit   -- app.WriteGenesisFile outcome
  createSidecar : Option Unit  -- app.CreateSidecar outcome

/-- The `createGenesis` orchestrator of the subnet-create command
(unnamed source file, lines 79-137): refuses an existing configuration
without `-f`, validates the name with `checkInvalidSubnetNames`, rejects
multiple VM flags, resolves the VM type (prompting when no flag chose
one), builds the config, then writes the genesis file and the sidecar.
It grounds the write effects of the vocabulary. -/
def createGenesisRun (inp : CreateGenesisInput) :
    Except CmdError Unit × List Effect :=
  if inp.genesisExists ∧ ¬inp.forceCreate then (.error .configExists, [])
  else
    match checkInvalidSubnetNames inp.name with
    | .illegalNameCharacter => (.error .invalidName, [])
    | .ok =>
      if inp.moreThanOneVM then (.error .tooManyVMs, [])
      else
        let vmStep : Except CmdError Unit × List Effect :=
          if inp.vmFlagSelected then (.ok (), [])
          else
            match inp.vmTypePrompt with
            | none => (.error .promptError, [.promptUser])
            | some _ => (.ok (), [.promptUser])
        match vmStep with
        | (.error e, tr) => (.error e, tr)
        | (.ok _, tr1) =>
          match inp.vmConfig with
          | none => (.error .vmConfigError, tr1)
          | some _ =>
            match inp.writeGenesis with
            | none => (.error .writeError, tr1 ++ [.writeGenesisFile])
            | some _ =>
              match inp.createSidecar with
              | none =>
                (.error .writeError, tr1 ++ [.writeGenesisFile, .writeSidecar])
              | some _ =>
                (.ok (), tr1 ++ [.writeGenesisFile, .writeSidecar, .printToUser])

/-! # Theorems -/

/-- Per-rune bridge between `isIllegalNameChar` and the character classes
named by the spec. -/
theorem isIllegalNameChar_iff (r : Char) :
    isIllegalNameChar r = true ↔
      127 < r.toNat ∨ ¬(r.isAlpha = true ∨ r.isDigit = true ∨ r = ' ') := by
  unfold isIllegalNameChar
  simp [decide_eq_true_iff]
  tauto

/-- C2 counterexample: the supplied weight 0 is outside
`[MinStakeWeight, MaxStakeWeight]`, yet the weight branch does not fail
with the illegal-weight error — it routes to the prompt instead. -/
theorem resolveWeight_zero_not_illegal :
    resolveWeight 0 ≠ WeightResolution.illegalWeight ∧
      ¬(MinStakeWeight ≤ (0 : Int) ∧ (0 : Int) ≤ MaxStakeWeight) := by
  decide

/-- C2 (amended): for every non-zero supplied weight, the weight branch
fails with the illegal-weight error exactly when the weight lies outside
`[MinStakeWeight, MaxStakeWeight]`; the supplied value 0 is treated as
unset and routed to the prompt. -/
theorem resolveWeight_illegal_iff (w : Int) (hw : w ≠ 0) :
    resolveWeight w = WeightResolution.illegalWeight ↔
      (w < MinStakeWeight ∨ w > MaxStakeWeight) := by
  unfold resolveWeight
  rw [if_neg hw]
  by_cases h : w < MinStakeWeight ∨ w > MaxStakeWeight
  · simp [h]
  · simp [h]

/-- Witness for the amended C2 at the concrete out-of-range weight 101. -/
theorem resolveWeight_illegal_iff_witness :
    resolveWeight 101 = WeightResolution.illegalWeight :=
  (resolveWeight_illegal_iff 101 (by decide)).mpr (by decide)

/-- C9: the supplied weight 0 is treated as unset — it routes to the
interactive prompt and never produces the illegal-weight error, which is
reachable exactly for non-zero weights outside the legal range. -/
theorem resolveWeight_zero_prompts :
    resolveWeight 0 = WeightResolution.promptUser ∧
      ∀ w : Int, resolveWeight w = WeightResolution.illegalWeight ↔
        (w ≠ 0 ∧ (w < MinStakeWeight ∨ w > MaxStakeWeight)) := by
  refine ⟨rfl, fun w => ?_⟩
  unfold resolveWeight
  by_cases hw : w = 0
  · simp [hw]
  · rw [if_neg hw]
    by_cases h : w < MinStakeWeight ∨ w > MaxStakeWeight
    · simp [h, hw]
    · simp [h, hw]

/-- C3: `checkInvalidSubnetNames` returns the illegal-name error exactly
when some character of the name is non-ASCII or is not an ASCII letter,
ASCII digit, or space; names made only of those characters pass. -/
theorem checkInvalidSubnetNames_fails_iff (name : List Char) :
    checkInvalidSubnetNames name = NameCheck.illegalNameCharacter ↔
      ∃ c ∈ name, 127 < c.toNat ∨ ¬(c.isAlpha = true ∨ c.isDigit = true ∨ c = ' ') := by
  induction name with
  | nil => simp [checkInvalidSubnetNames]
  | cons r rest ih =>
    by_cases h : isIllegalNameChar r = true
    · rw [checkInvalidSubnetNames, if_pos h]
      exact ⟨fun _ => ⟨r, List.mem_cons_self r rest, (isIllegalNameChar_iff r).1 h⟩,
        fun _ => rfl⟩
    · rw [checkInvalidSubnetNames, if_neg h, ih]
      constructor
      · rintro ⟨c, hc, hprop⟩
        exact ⟨c, List.mem_cons_of_mem r hc, hprop⟩
      · rintro ⟨c, hc, hprop⟩
        rcases List.mem_cons.mp hc with rfl | hmem
        · exact absurd ((isIllegalNameChar_iff c).2 hprop) h
        · exact ⟨c, hmem, hprop⟩

/-- C4: a parsed start-time flag fails with the too-soon error exactly when
it is before `now + StakingMinimumLeadTime`; the boundary value
`now + StakingMinimumLeadTime` itself succeeds, and any later value is
returned unchanged. -/
theorem resolveStart_flag_tooSoon_iff (stDefault now t : Int) (c : Bool)
    (cs : Option Int) :
    (resolveStart stDefault now ⟨some (some t), c, cs⟩ =
        Except.error TimeError.tooSoon ↔ t < now + StakingMinimumLeadTime) ∧
    resolveStart stDefault now
        ⟨some (some (now + StakingMinimumLeadTime)), c, cs⟩ =
      Except.ok (now + StakingMinimumLeadTime) ∧
    (¬t < now + StakingMinimumLeadTime →
      resolveStart stDefault now ⟨some (some t), c, cs⟩ = Except.ok t) := by
  refine ⟨?_, ?_, ?_⟩
  · unfold resolveStart
    by_cases h : t < now + StakingMinimumLeadTime <;> simp [h]
  · unfold resolveStart
    simp
  · intro h
    unfold resolveStart
    simp [h]

/-- Witness for C4: the boundary and a later start both succeed at concrete
inputs. -/
theorem resolveStart_flag_tooSoon_iff_witness :
    resolveStart 0 1000 ⟨some (some 1300), true, none⟩ = Except.ok 1300 ∧
      resolveStart 0 1000 ⟨some (some 2000), true, none⟩ = Except.ok 2000 :=
  ⟨(resolveStart_flag_tooSoon_iff 0 1000 1300 true none).2.1,
   (resolveStart_flag_tooSoon_iff 0 1000 2000 true none).2.2 (by decide)⟩

/-- C10: the "Start in five minutes" option resolves to the package-level
`startTimeDefault`, the clock reading taken once at package initialization
plus `StakingStartLeadTime`; the resolution-time clock reading plays no
part, so every selection of the option within one process yields the same
fixed timestamp. -/
theorem resolveStart_default_fixed (initTime now1 now2 : Int)
    (cs1 cs2 : Option Int) :
    resolveStart (startTimeDefault initTime) now1 ⟨none, true, cs1⟩ =
      Except.ok (initTime + StakingStartLeadTime) ∧
    resolveStart (startTimeDefault initTime) now1 ⟨none, true, cs1⟩ =
      resolveStart (startTimeDefault initTime) now2 ⟨none, true, cs2⟩ := by
  unfold resolveStart startTimeDefault
  simp

/-- The scan misses exactly when no record carries the node identifier. -/
theorem scanValidators_none_iff (vs : List (Nat × Int)) (nid : Nat) :
    scanValidators vs nid = none ↔ ¬∃ p ∈ vs, p.1 = nid := by
  induction vs with
  | nil => simp [scanValidators]
  | cons q rest ih =>
    obtain ⟨n, e⟩ := q
    by_cases h : n = nid <;> simp [scanValidators, h, ih]

/-- A hit of the scan is the end time of a record carrying the node
identifier. -/
theorem scanValidators_some_mem (vs : List (Nat × Int)) (nid : Nat) (e : Int)
    (h : scanValidators vs nid = some e) :
    ∃ p ∈ vs, p.1 = nid ∧ p.2 = e := by
  induction vs with
  | nil => simp [scanValidators] at h
  | cons q rest ih =>
    obtain ⟨n, e0⟩ := q
    by_cases hn : n = nid
    · simp [scanValidators, hn] at h
      exact ⟨(n, e0), List.mem_cons_self _ _, hn, h⟩
    · simp only [scanValidators, if_neg hn] at h
      obtain ⟨p, hp, h1, h2⟩ := ih h
      exact ⟨p, List.mem_cons_of_mem _ hp, h1, h2⟩

/-- C5: given a gateway response, the until-expires lookup returns the end
time of a matching record minus the start time when the node is present —
in particular end time 1700000000 with start 1690000000 yields 10000000
seconds — and fails with the node-not-found error exactly when no record
matches. -/
theorem getMaxValidationTime_spec (vs : List (Nat × Int)) (nid : Nat)
    (start : Int) :
    (getMaxValidationTime (some vs) nid start = Except.error TimeError.nodeNotFound ↔
      ¬∃ p ∈ vs, p.1 = nid) ∧
    ((∃ p ∈ vs, p.1 = nid) →
      ∃ p ∈ vs, p.1 = nid ∧
        getMaxValidationTime (some vs) nid start = Except.ok (p.2 - start)) ∧
    getMaxValidationTime (some [(0, 1700000000)]) 0 1690000000 =
      Except.ok 10000000 := by
  refine ⟨?_, ?_, by norm_num [getMaxValidationTime, scanValidators]⟩
  · rcases hscan : scanValidators vs nid with _ | e
    · simp [getMaxValidationTime, hscan, (scanValidators_none_iff vs nid).mp hscan]
    · have hmem := scanValidators_some_mem vs nid e hscan
      obtain ⟨p, hp, h1, _⟩ := hmem
      simp only [getMaxValidationTime, hscan]
      constructor
      · intro h
        exact absurd h (by simp)
      · intro h
        exact absurd ⟨p, hp, h1⟩ h
  · intro hex
    rcases hscan : scanValidators vs nid with _ | e
    · exact absurd hex ((scanValidators_none_iff vs nid).mp hscan)
    · obtain ⟨p, hp, h1, h2⟩ := scanValidators_some_mem vs nid e hscan
      exact ⟨p, hp, h1, by simp [getMaxValidationTime, hscan, h2]⟩

/-- Witness for C5 at a concrete one-record set: node 5 is present with end
time 100, so resolution from start 40 yields some matching record whose end
time minus 40 is the result. -/
theorem getMaxValidationTime_spec_witness :
    ∃ p ∈ [((5 : Nat), (100 : Int))], p.1 = 5 ∧
      getMaxValidationTime (some [(5, 100)]) 5 40 = Except.ok (p.2 - 40) :=
  (getMaxValidationTime_spec [(5, 100)] 5 40).2.1 ⟨(5, 100), by simp, rfl⟩

/-- C6: a script of prompt cycles whose rejections all precede a final
confirmation resolves to the confirmed candidate after exactly one cycle
per response; in general a resolved candidate is exactly the entry of the
confirmed cycle, every earlier cycle having been rejected; and the concrete
script reject-reject-confirm returns its third candidate after three
cycles. -/
theorem promptDuration_spec :
    (∀ (pre : List (Int × Bool)) (d : Int),
      (∀ q ∈ pre, q.2 = false) →
      promptDuration (pre ++ [(d, true)]) = some (d, pre.length + 1)) ∧
    (∀ (script : List (Int × Bool)) (d : Int) (n : Nat),
      promptDuration script = some (d, n) →
      1 ≤ n ∧ script[n - 1]? = some (d, true) ∧
        ∀ i < n - 1, ∃ di, script[i]? = some (di, false)) ∧
    promptDuration [(10, false), (20, false), (30, true)] = some (30, 3) := by
  refine ⟨?_, ?_, by decide⟩
  · intro pre d hall
    induction pre with
    | nil => rfl
    | cons q rest ih =>
      obtain ⟨d0, b⟩ := q
      have hb : b = false := hall (d0, b) (List.mem_cons_self _ _)
      subst hb
      have hrest : ∀ q ∈ rest, q.2 = false :=
        fun q hq => hall q (List.mem_cons_of_mem _ hq)
      simp [promptDuration, ih hrest]
  · intro script
    induction script with
    | nil => intro d n h; simp [promptDuration] at h
    | cons q rest ih =>
      intro d n h
      obtain ⟨d0, b⟩ := q
      cases b with
      | true =>
        simp [promptDuration] at h
        obtain ⟨hd, hn⟩ := h
        refine ⟨by omega, ?_, ?_⟩
        · have h0 : n - 1 = 0 := by omega
          rw [h0]
          simp [hd]
        · intro i hi
          omega
      | false =>
        simp only [promptDuration] at h
        rw [if_neg (by simp)] at h
        rcases hrec : promptDuration rest with _ | p
        · rw [hrec] at h
          simp at h
        · obtain ⟨dr, m⟩ := p
          rw [hrec] at h
          simp at h
          obtain ⟨hd, hn⟩ := h
          subst hd
          subst hn
          obtain ⟨hm1, hmid, hpre⟩ := ih dr m hrec
          refine ⟨by omega, ?_, ?_⟩
          · have he : m + 1 - 1 = (m - 1) + 1 := by omega
            rw [he, List.getElem?_cons_succ]
            exact hmid
          · intro i hi
            rcases i with _ | j
            · exact ⟨d0, by simp⟩
            · rw [List.getElem?_cons_succ]
              exact hpre j (by omega)

/-- C1 counterexample, two concrete resolved windows.
First: with the start-time flag at the exact boundary and a staking-period
flag of -3600 seconds, resolution succeeds with a negative duration (only
`duration == 0` routes to the prompt, no positivity check exists).
Second: with no start flag, the default option resolves to the fixed
package-initialization default (init clock 0 plus the lead), which at
resolution clock 1000 is no longer `StakingMinimumLeadTime` in the
future. -/
theorem getTimeParameters_invariant_counterexample :
    (getTimeParameters 0 1000000 ⟨some (some 1000300), true, none⟩
        ⟨-3600, false, none, 0, []⟩ = Except.ok (1000300, -3600) ∧
      ¬(0 : Int) < -3600) ∧
    (getTimeParameters (startTimeDefault 0) 1000 ⟨none, true, none⟩
        ⟨7200, false, none, 0, []⟩ = Except.ok (300, 7200) ∧
      ¬1000 + StakingMinimumLeadTime ≤ 300) := by
  refine ⟨⟨?_, by decide⟩, ?_, by decide⟩
  · norm_num [getTimeParameters, resolveStart, resolveDuration,
      StakingMinimumLeadTime]
  · norm_num [getTimeParameters, resolveStart, resolveDuration,
      startTimeDefault, StakingStartLeadTime]

/-- C1 (amended): the lead-time half of the invariant holds on the
start-time-flag path — a window resolved from a parsed flag start has its
start at least `StakingMinimumLeadTime` after the validation-time clock
reading.  Prompt-resolved starts (the fixed five-minute default and the
custom date prompt) are not re-validated against the clock, and the
resolved duration is used as supplied with no strict-positivity check. -/
theorem getTimeParameters_flag_start_lead (stDefault now t : Int) (c : Bool)
    (cs : Option Int) (d : DurationInput) (start dur : Int)
    (h : getTimeParameters stDefault now ⟨some (some t), c, cs⟩ d =
      Except.ok (start, dur)) :
    now + StakingMinimumLeadTime ≤ start := by
  simp only [getTimeParameters, resolveStart] at h
  by_cases ht : t < now + StakingMinimumLeadTime
  · rw [if_pos ht] at h
    simp at h
  · rw [if_neg ht] at h
    dsimp only at h
    rcases hd : resolveDuration d t with _ | _
    · rw [hd] at h
      simp at h
    · rw [hd] at h
      simp at h
      omega

/-- Witness for the amended C1 at a concrete flag start. -/
theorem getTimeParameters_flag_start_lead_witness :
    (1000 : Int) + StakingMinimumLeadTime ≤ 1300 :=
  getTimeParameters_flag_start_lead 0 1000 1300 true none
    ⟨5, false, none, 0, []⟩ 1300 5
    (by norm_num [getTimeParameters, resolveStart, resolveDuration,
      StakingMinimumLeadTime])

/-- The key-name step performs no persisted-state write. -/
theorem keyNameStep_no_writes (kf : Option String) (kd : Option Unit)
    (kp : Option String) :
    ((keyNameStep kf kd kp).2.all fun eff => !modifiesPersistedState eff) = true := by
  unfold keyNameStep
  repeat' split
  all_goals rfl

/-- The node-ID step performs no persisted-state write. -/
theorem nodeIDStep_no_writes (nf : Option (Option Nat)) (np : Option Nat) :
    ((nodeIDStep nf np).2.all fun eff => !modifiesPersistedState eff) = true := by
  unfold nodeIDStep
  repeat' split
  all_goals rfl

/-- The weight step performs no persisted-state write. -/
theorem weightStep_no_writes (wf : Int) (wp : Option Int) :
    ((weightStep wf wp).2.all fun eff => !modifiesPersistedState eff) = true := by
  unfold weightStep
  repeat' split
  all_goals rfl

theorem addValidatorRun_trace_no_writes (inp : AddValidatorInput) :
    ((addValidatorRun inp).2.all fun eff => !modifiesPersistedState eff) = true := by
  have hk := keyNameStep_no_writes inp.keyFlag inp.keyDirRead inp.keyPrompt
  have hn := nodeIDStep_no_writes inp.nodeIDFlag inp.nodeIDPrompt
  have hw := weightStep_no_writes inp.weightFlag inp.weightPrompt
  unfold addValidatorRun
  rcases hkeq : keyNameStep inp.keyFlag inp.keyDirRead inp.keyPrompt with ⟨rk, trk⟩
  rw [hkeq] at hk
  rcases hneq : nodeIDStep inp.nodeIDFlag inp.nodeIDPrompt with ⟨rn, trn⟩
  rw [hneq] at hn
  rcases hweq : weightStep inp.weightFlag inp.weightPrompt with ⟨rw0, trw⟩
  rw [hweq] at hw
  rcases rk with e | u
  · exact hk
  · cases hnp : inp.networkPrompt with
    | none => simp_all [List.all_append, modifiesPersistedState]
    | some _ =>
    cases hnc : inp.nameAndChains with
    | none => simp_all [List.all_append, modifiesPersistedState]
    | some _ =>
    cases hsc : inp.sidecar with
    | none => simp_all [List.all_append, modifiesPersistedState]
    | some subnetID =>
    by_cases hs : subnetID = 0
    · simp_all [List.all_append, modifiesPersistedState]
    · dsimp only
      rw [if_neg hs]
      rcases rn with e | nodeID
      · simp_all [List.all_append, modifiesPersistedState]
      · rcases rw0 with e | u2
        · simp_all [List.all_append, modifiesPersistedState]
        · cases hst : resolveStart inp.stDefault inp.now inp.startInput with
          | error e =>
            cases hsf : inp.startInput.flag <;>
              simp_all [List.all_append, modifiesPersistedState]
          | ok start =>
            cases hdu : resolveDuration
                { inp.durationInput with nodeID := nodeID } start with
            | error e =>
              by_cases hdf : inp.durationInput.flag = 0 <;>
                by_cases hde : inp.durationInput.chooseExpiry = true <;>
                cases hsf : inp.startInput.flag <;>
                simp_all [List.all_append, modifiesPersistedState]
            | ok dur =>
              cases hsub : inp.submit <;>
                by_cases hdf : inp.durationInput.flag = 0 <;>
                by_cases hde : inp.durationInput.chooseExpiry = true <;>
                cases hsf : inp.startInput.flag <;>
                simp_all [List.all_append, modifiesPersistedState]

/-- C8: a failed `addValidator` run modifies no persisted state — no
configuration, no key material; every sidecar interaction in its trace is
the read.  (The trace in fact never contains a persisted-state write,
whether the run fails or succeeds.) -/
theorem addValidatorRun_failure_no_writes (inp : AddValidatorInput)
    (e : CmdError) (_h : (addValidatorRun inp).1 = Except.error e) :
    ((addValidatorRun inp).2.all fun eff => !modifiesPersistedState eff) = true :=
  addValidatorRun_trace_no_writes inp

/-- Witness for C8: a concrete run failing at the key-directory read has a
write-free trace. -/
theorem addValidatorRun_failure_no_writes_witness :
    ((addValidatorRun
        ⟨none, none, none, none, none, none, none, none, 0, none, 0, 0,
          ⟨none, true, none⟩, ⟨0, false, none, 0, []⟩, none⟩).2.all
      fun eff => !modifiesPersistedState eff) = true :=
  addValidatorRun_failure_no_writes
    ⟨none, none, none, none, none, none, none, none, 0, none, 0, 0,
      ⟨none, true, none⟩, ⟨0, false, none, 0, []⟩, none⟩
    CmdError.keyDirError rfl

/-- Witness for C6: a one-rejection script ending in a confirmation of 8
resolves to 8 after two cycles. -/
theorem promptDuration_spec_witness :
    promptDuration ([((5 : Int), false)] ++ [((8 : Int), true)]) = some (8, 2) :=
  promptDuration_spec.1 [(5, false)] 8 (by decide)

/-- A digit character's codepoint lies in the decimal-digit range. -/
theorem isDigitChar_bounds (c : Char) (h : isDigitChar c = true) :
    48 ≤ c.toNat ∧ c.toNat ≤ 57 := by
  unfold isDigitChar at h
  simp [decide_eq_true_iff] at h
  exact h

/-- A digit character's value is a single decimal digit. -/
theorem digitVal_lt_ten (c : Char) (h : isDigitChar c = true) :
    digitVal c < 10 := by
  obtain ⟨h1, h2⟩ := isDigitChar_bounds c h
  unfold digitVal
  omega

/-- Rendering the value of a digit character recovers the character. -/
theorem char_of_digitVal (c : Char) (h : isDigitChar c = true) :
    Char.ofNat (48 + digitVal c) = c := by
  obtain ⟨h1, _⟩ := isDigitChar_bounds c h
  have he : 48 + digitVal c = c.toNat := by
    unfold digitVal
    omega
  rw [he, Char.ofNat_toNat]

/-- Two-digit rendering inverts two-digit parsing. -/
theorem twoDigits_of_digits (a b : Char) (ha : isDigitChar a = true)
    (hb : isDigitChar b = true) :
    twoDigits (10 * digitVal a + digitVal b) = [a, b] := by
  have ha10 := digitVal_lt_ten a ha
  have hb10 := digitVal_lt_ten b hb
  unfold twoDigits
  have h1 : (10 * digitVal a + digitVal b) / 10 % 10 = digitVal a := by omega
  have h2 : (10 * digitVal a + digitVal b) % 10 = digitVal b := by omega
  rw [h1, h2, char_of_digitVal a ha, char_of_digitVal b hb]

/-- Four-digit rendering inverts four-digit parsing. -/
theorem fourDigits_of_digits (a b c d : Char) (ha : isDigitChar a = true)
    (hb : isDigitChar b = true) (hc : isDigitChar c = true)
    (hd : isDigitChar d = true) :
    fourDigits (1000 * digitVal a + 100 * digitVal b + 10 * digitVal c +
      digitVal d) = [a, b, c, d] := by
  have ha10 := digitVal_lt_ten a ha
  have hb10 := digitVal_lt_ten b hb
  have hc10 := digitVal_lt_ten c hc
  have hd10 := digitVal_lt_ten d hd
  unfold fourDigits
  have h1 : (1000 * digitVal a + 100 * digitVal b + 10 * digitVal c +
      digitVal d) / 1000 % 10 = digitVal a := by omega
  have h2 : (1000 * digitVal a + 100 * digitVal b + 10 * digitVal c +
      digitVal d) / 100 % 10 = digitVal b := by omega
  have h3 : (1000 * digitVal a + 100 * digitVal b + 10 * digitVal c +
      digitVal d) / 10 % 10 = digitVal c := by omega
  have h4 : (1000 * digitVal a + 100 * digitVal b + 10 * digitVal c +
      digitVal d) % 10 = digitVal d := by omega
  rw [h1, h2, h3, h4, char_of_digitVal a ha, char_of_digitVal b hb,
    char_of_digitVal c hc, char_of_digitVal d hd]

/-- C7: parsing a string in the fixed layout and formatting the result
with the same layout reproduces the identical string; in particular
"2024-01-01 00:00:00" round-trips. -/
theorem parseTimestamp_roundTrip :
    (∀ (s : List Char) (dt : DateTime),
      parseTimestamp s = some dt → formatTimestamp dt = s) ∧
    ∃ dt, parseTimestamp ("2024-01-01 00:00:00".toList) = some dt ∧
      formatTimestamp dt = "2024-01-01 00:00:00".toList := by
  constructor
  · intro s dt h
    unfold parseTimestamp at h
    split at h
    case h_2 => simp at h
    case h_1 y1 y2 y3 y4 c1 m1 m2 c2 d1 d2 c3 h1 h2 c4 n1 n2 c5 s1 s2 =>
      dsimp only at h
      split at h
      case isFalse => simp at h
      case isTrue hcond =>
        split at h
        case isFalse => simp at h
        case isTrue hrange =>
          simp only [Option.some.injEq] at h
          subst h
          simp only [Bool.and_eq_true, beq_iff_eq] at hcond
          obtain ⟨⟨⟨⟨⟨⟨⟨⟨⟨⟨⟨⟨⟨⟨⟨⟨⟨⟨hy1, hy2⟩, hy3⟩, hy4⟩, hc1⟩, hm1⟩, hm2⟩,
            hc2⟩, hd1⟩, hd2⟩, hc3⟩, hh1⟩, hh2⟩, hc4⟩, hn1⟩, hn2⟩, hc5⟩,
            hs1⟩, hs2⟩ := hcond
          subst hc1
          subst hc2
          subst hc3
          subst hc4
          subst hc5
          unfold formatTimestamp
          dsimp only
          rw [fourDigits_of_digits y1 y2 y3 y4 hy1 hy2 hy3 hy4,
            twoDigits_of_digits m1 m2 hm1 hm2,
            twoDigits_of_digits d1 d2 hd1 hd2,
            twoDigits_of_digits h1 h2 hh1 hh2,
            twoDigits_of_digits n1 n2 hn1 hn2,
            twoDigits_of_digits s1 s2 hs1 hs2]
          rfl
  · exact ⟨⟨2024, 1, 1, 0, 0, 0⟩, by decide, by decide⟩

/-- Witness for C7: the concrete timestamp string round-trips through the
parse of the fixed layout. -/
theorem parseTimestamp_roundTrip_witness :
    formatTimestamp ⟨2024, 1, 1, 0, 0, 0⟩ = "2024-01-01 00:00:00".toList :=
  parseTimestamp_roundTrip.1 ("2024-01-01 00:00:00".toList)
    ⟨2024, 1, 1, 0, 0, 0⟩ (by decide)

end MetalCli
